import Mathlib

/-
Verification of the veterinary ration calculator (src/main.py) against its
specification. The Python program is embedded shallowly: quantities and
nutrient values become rationals, the pandas row lookups become list
filters, and each command becomes a pure function returning an outcome
type whose error constructors stand for the sys.exit calls (and, for
Pearson, for the uncaught ZeroDivisionError). Diet tokens are lists of
characters so that the split-on-colon step of cmd_check reduces in the
kernel; List.splitOn on a single separator has the same semantics as the
Python str.split used by the source.
-/

namespace RationCalc

/-- One row of the feeds table (columns of data/feeds.csv as read by
cmd_check): identifier, display name, inclusion ceiling and the five
nutrient density values, each interpreted per 100 units of feed. -/
structure Feed where
  Feed_ID : List Char
  Name : List Char
  Max_Inclusion_Pct : ℚ
  ME_per_kg : ℚ
  CP_Pct : ℚ
  Ca_Pct : ℚ
  P_Pct : ℚ
  Lysine_Pct : ℚ

/-- One resolved diet entry of cmd_check: a feed row together with the
parsed quantity (main.py line 95). -/
structure DietItem where
  feed : Feed
  qty : ℚ

/-- The five running nutrient totals of cmd_check (main.py line 104). -/
structure Totals where
  ME : ℚ
  CP : ℚ
  Ca : ℚ
  P : ℚ
  Lysine : ℚ

/-- Per-entry contribution of one feed value, (q * value) / 100
(main.py lines 123 to 127). -/
def contribution (q v : ℚ) : ℚ := q * v / 100

/-- One loop iteration of the accumulation in cmd_check (main.py lines
129 to 133): each of the five totals grows by the entry contribution. -/
def addItem (t : Totals) (it : DietItem) : Totals :=
  ⟨t.ME + contribution it.qty it.feed.ME_per_kg,
   t.CP + contribution it.qty it.feed.CP_Pct,
   t.Ca + contribution it.qty it.feed.Ca_Pct,
   t.P + contribution it.qty it.feed.P_Pct,
   t.Lysine + contribution it.qty it.feed.Lysine_Pct⟩

/-- The accumulation loop of cmd_check over the whole diet, starting from
all-zero totals (main.py lines 104 and 110 to 133). -/
def computeTotals (diet : List DietItem) : Totals :=
  diet.foldl addItem ⟨0, 0, 0, 0, 0⟩

/-- The running quantity total of cmd_check (main.py lines 76 and 96). -/
def totalQty (diet : List DietItem) : ℚ :=
  diet.foldl (fun acc it => acc + it.qty) 0

/-- Diet token parsing of cmd_check (main.py lines 78 to 83): the token is
split on the colon; exactly two parts must result and the second must
parse as a number, else sys.exit echoes the literal token. The numeric
parser pn abstracts the Python float builtin, which is external to the
repository. -/
def parseToken (pn : List Char → Option ℚ) (entry : List Char) :
    Except (List Char) (List Char × ℚ) :=
  match entry.splitOn ':' with
  | [f_id, qty_str] =>
    match pn qty_str with
    | some qty => Except.ok (f_id, qty)
    | none => Except.error entry
  | _ => Except.error entry

/-- The Ca over P ratio of cmd_check (main.py line 143): guarded by a
strictly-positive test on the denominator, 0 otherwise. -/
def ca_p_ratio (t : Totals) : ℚ := if t.P > 0 then t.Ca / t.P else 0

/-- The ME over CP ratio of cmd_check (main.py line 144), same guard. -/
def me_cp_ratio (t : Totals) : ℚ := if t.CP > 0 then t.ME / t.CP else 0

/-- Status of one nutrient comparison row of cmd_check: OK, N/A for an
absent target, or LOW and HIGH carrying the reported percent deviation
(main.py lines 157 to 175). -/
inductive Status where
  | ok : Status
  | na : Status
  | low : ℚ → Status
  | high : ℚ → Status

/-- The percent deviation reported with LOW and HIGH statuses,
((calcv - target) / target) * 100 (main.py lines 171 and 174). -/
def devPct (calcv target : ℚ) : ℚ := (calcv - target) / target * 100

/-- The tolerance comparison of one nutrient in cmd_check (main.py lines
156 to 175): an absent target yields N/A; otherwise the value is compared
against the inclusive window target * (1 - tolerance) to
target * (1 + tolerance), where tolerance is Tolerance_Pct / 100. -/
def checkNutrient (tolerance calcv : ℚ) (target : Option ℚ) : Status :=
  match target with
  | none => Status.na
  | some t =>
    if t * (1 - tolerance) ≤ calcv ∧ calcv ≤ t * (1 + tolerance) then Status.ok
    else if calcv < t * (1 - tolerance) then Status.low (devPct calcv t)
    else Status.high (devPct calcv t)

/-- Whether a status row flips the overall verdict (main.py lines 172 and
175 assign FAIL exactly in the LOW and HIGH branches). -/
def isViolation : Status → Bool
  | Status.low _ => true
  | Status.high _ => true
  | _ => false

/-- The verdict loop of cmd_check (main.py lines 154 to 175): the overall
status starts at PASS and is set to FAIL by every LOW or HIGH row; rows
are pairs of a calculated value and an optional target. -/
def overallStatus (tolerance : ℚ) (rows : List (ℚ × Option ℚ)) : String :=
  rows.foldl
    (fun acc r =>
      if isViolation (checkNutrient tolerance r.1 r.2) then "FAIL" else acc)
    "PASS"

/-- Outcome of cmd_pearson: the precondition sys.exit, the uncaught
ZeroDivisionError raised by the division at main.py line 203 when
total_parts is zero, or the computed parts and percentages. -/
inductive PearsonOutcome where
  | precondError : PearsonOutcome
  | zeroDivCrash : PearsonOutcome
  | ok : ℚ → ℚ → ℚ → ℚ → PearsonOutcome

/-- The Pearson Square command (main.py lines 189 to 210): validation that
the target lies between the two feed values, then parts as absolute
distances and percentages over the part total. The zero total case models
the unhandled ZeroDivisionError of the Python division. -/
def cmd_pearson (target f1 f2 : ℚ) : PearsonOutcome :=
  if ¬ ((f1 ≤ target ∧ target ≤ f2) ∨ (f2 ≤ target ∧ target ≤ f1)) then
    PearsonOutcome.precondError
  else
    if |f2 - target| + |f1 - target| = 0 then PearsonOutcome.zeroDivCrash
    else
      PearsonOutcome.ok |f2 - target| |f1 - target|
        (|f2 - target| / (|f2 - target| + |f1 - target|) * 100)
        (|f1 - target| / (|f2 - target| + |f1 - target|) * 100)

/-- Outcome of cmd_dilute: the two precondition sys.exit calls or the
computed dilution factor and water parts. -/
inductive DiluteOutcome where
  | targetNotLowerError : DiluteOutcome
  | targetNonposError : DiluteOutcome
  | ok : ℚ → ℚ → DiluteOutcome

/-- The dilution command (main.py lines 213 to 224): exit when the target
is not lower than the start, exit when the target is not positive, else
return start / target and that factor minus one. -/
def cmd_dilute (start target : ℚ) : DiluteOutcome :=
  if target ≥ start then DiluteOutcome.targetNotLowerError
  else if target ≤ 0 then DiluteOutcome.targetNonposError
  else DiluteOutcome.ok (start / target) (start / target - 1)

/-- Whether a dilution outcome is one of the fatal exits. -/
def isDiluteError : DiluteOutcome → Bool
  | DiluteOutcome.ok _ _ => false
  | _ => true

/-- find_similar_id (main.py lines 51 to 53) calls
difflib.get_close_matches with n 3 and cutoff 0.6: of the candidates
whose similarity to the target reaches the cutoff, the best three in
descending similarity order. The similarity function sim abstracts
difflib.SequenceMatcher ratio, which is external to the repository. -/
def find_similar_id (sim : String → String → ℚ) (target : String)
    (available_ids : List String) : List String :=
  ((available_ids.filter (fun x => decide ((6 : ℚ)/10 ≤ sim target x))).mergeSort
    (fun a b => decide (sim target b ≤ sim target a))).take 3

/-- The identifier lookup of cmd_check (main.py lines 63 to 69 for
animals, 86 to 92 for feeds): the table is filtered by case-sensitive
equality on the key column; the first match is returned, and only when no
row matches are fuzzy suggestions computed over the key column values. -/
def resolveId {α : Type} (key : α → String) (sim : String → String → ℚ)
    (table : List α) (target : String) : Except (List String) α :=
  match table.filter (fun r => decide (key r = target)) with
  | [] => Except.error (find_similar_id sim target (table.map key))
  | r :: _ => Except.ok r

lemma foldl_addItem_eq (diet : List DietItem) : ∀ t0 : Totals,
    diet.foldl addItem t0 =
      ⟨t0.ME + (diet.map fun it => contribution it.qty it.feed.ME_per_kg).sum,
       t0.CP + (diet.map fun it => contribution it.qty it.feed.CP_Pct).sum,
       t0.Ca + (diet.map fun it => contribution it.qty it.feed.Ca_Pct).sum,
       t0.P + (diet.map fun it => contribution it.qty it.feed.P_Pct).sum,
       t0.Lysine + (diet.map fun it => contribution it.qty it.feed.Lysine_Pct).sum⟩ := by
  induction diet with
  | nil => intro t0; simp
  | cons hd tl ih =>
    intro t0
    simp only [List.foldl_cons, List.map_cons, List.sum_cons, ih (addItem t0 hd)]
    simp only [addItem, Totals.mk.injEq]
    refine ⟨by ring, by ring, by ring, by ring, by ring⟩

/-- C1: for every resolved diet, each accumulated nutrient total equals
the sum over the entries of quantity times the per-100-unit feed value
divided by 100, the running totals being exact. -/
theorem totals_eq_sum (diet : List DietItem) :
    (computeTotals diet).ME = (diet.map fun it => it.qty * it.feed.ME_per_kg / 100).sum ∧
    (computeTotals diet).CP = (diet.map fun it => it.qty * it.feed.CP_Pct / 100).sum ∧
    (computeTotals diet).Ca = (diet.map fun it => it.qty * it.feed.Ca_Pct / 100).sum ∧
    (computeTotals diet).P = (diet.map fun it => it.qty * it.feed.P_Pct / 100).sum ∧
    (computeTotals diet).Lysine = (diet.map fun it => it.qty * it.feed.Lysine_Pct / 100).sum := by
  have h := foldl_addItem_eq diet ⟨0, 0, 0, 0, 0⟩
  simp only [computeTotals, h, contribution]
  refine ⟨by simp, by simp, by simp, by simp, by simp⟩

/-- C2: for a defined target T, tolerance percentage tau and value V, the
status is OK exactly when V lies in the inclusive window from
T * (1 - tau/100) to T * (1 + tau/100); it is LOW with the signed percent
deviation ((V - T)/T) * 100 exactly when V is below the window, and HIGH
with the same deviation exactly when V is above it. -/
theorem tolerance_status_correct (T tau V : ℚ) (htau : 0 ≤ tau) (hT : 0 < T) :
    (checkNutrient (tau/100) V (some T) = Status.ok ↔
      T * (1 - tau/100) ≤ V ∧ V ≤ T * (1 + tau/100)) ∧
    (checkNutrient (tau/100) V (some T) = Status.low ((V - T) / T * 100) ↔
      V < T * (1 - tau/100)) ∧
    (checkNutrient (tau/100) V (some T) = Status.high ((V - T) / T * 100) ↔
      T * (1 + tau/100) < V) := by
  have hwin : T * (1 - tau/100) ≤ T * (1 + tau/100) := by nlinarith
  simp only [checkNutrient, devPct]
  split_ifs with h1 h2
  · obtain ⟨ha, hb⟩ := h1
    refine ⟨by simp [ha, hb], by simp; linarith, by simp; linarith⟩
  · refine ⟨by simp; intro ha; linarith, by simp [h2], by simp; linarith⟩
  · push_neg at h1 h2
    have h3 : T * (1 + tau/100) < V := h1 h2
    refine ⟨by simp; intro ha; linarith, by simp; linarith, by simp [h3]⟩

/-- Witness for C2 at the spec scenario: target 3000, tolerance 10
percent, calculated 3100 is within the window, hence status OK. -/
theorem tolerance_status_correct_witness :
    checkNutrient ((10 : ℚ)/100) 3100 (some 3000) = Status.ok ↔
      (3000 : ℚ) * (1 - 10/100) ≤ 3100 ∧ (3100 : ℚ) ≤ 3000 * (1 + 10/100) :=
  (tolerance_status_correct 3000 10 3100 (by norm_num) (by norm_num)).1

lemma overallStatus_fail_absorbs (tolerance : ℚ) (rows : List (ℚ × Option ℚ)) :
    rows.foldl
      (fun acc r =>
        if isViolation (checkNutrient tolerance r.1 r.2) then "FAIL" else acc)
      "FAIL" = "FAIL" := by
  induction rows with
  | nil => rfl
  | cons hd tl ih =>
    simp only [List.foldl_cons]
    split_ifs <;> exact ih

lemma overallStatus_pass_iff (tolerance : ℚ) (rows : List (ℚ × Option ℚ)) :
    overallStatus tolerance rows = "PASS" ↔
      ∀ r ∈ rows, isViolation (checkNutrient tolerance r.1 r.2) = false := by
  induction rows with
  | nil => simp [overallStatus]
  | cons hd tl ih =>
    simp only [overallStatus, List.foldl_cons] at ih ⊢
    by_cases hv : isViolation (checkNutrient tolerance hd.1 hd.2) = true
    · rw [if_pos hv, overallStatus_fail_absorbs]
      simp [hv]
    · rw [if_neg hv, ih]
      simp only [Bool.not_eq_true] at hv
      simp [hv]

/-- C3: the verdict is PASS exactly when no row with a defined target has
a LOW or HIGH status; a row with an absent target gets status N/A, and
removing such a row from anywhere in the list leaves the verdict
unchanged. -/
theorem verdict_pass_iff (tolerance : ℚ) (rows : List (ℚ × Option ℚ)) :
    (overallStatus tolerance rows = "PASS" ↔
      ∀ r ∈ rows, ∀ x, r.2 = some x →
        isViolation (checkNutrient tolerance r.1 r.2) = false) ∧
    (∀ calcv : ℚ, checkNutrient tolerance calcv none = Status.na) ∧
    (∀ (front back : List (ℚ × Option ℚ)) (calcv : ℚ),
      overallStatus tolerance (front ++ (calcv, none) :: back) =
        overallStatus tolerance (front ++ back)) := by
  refine ⟨?_, fun _ => rfl, ?_⟩
  · rw [overallStatus_pass_iff]
    constructor
    · intro h r hr x hx; exact h r hr
    · intro h r hr
      rcases hx : r.2 with _ | x
      · simp [checkNutrient, hx, isViolation]
      · exact hx ▸ h r hr x hx
  · intro front back calcv
    simp only [overallStatus, List.foldl_append, List.foldl_cons]
    have : isViolation (checkNutrient tolerance calcv none) = false := rfl
    rw [this]
    simp

/-- A concrete feed used to exercise the ratio guard: calcium and
phosphorus density 1 per 100 units, the other values 0. -/
def cexFeed : Feed := ⟨[Char.ofNat 70], [Char.ofNat 70], 100, 0, 0, 1, 1, 0⟩

/-- Counterexample to C4 as stated: a diet of the single entry
(cexFeed, -100) yields totals with Ca = -1 and P = -1, so P is nonzero,
yet the code computes ratio 0 while Ca / P = 1; the code returns 0
whenever P is not strictly positive, not only at P = 0. -/
theorem ratio_claim_counterexample :
    (computeTotals [⟨cexFeed, -100⟩]).P ≠ 0 ∧
    ca_p_ratio (computeTotals [⟨cexFeed, -100⟩]) = 0 ∧
    (computeTotals [⟨cexFeed, -100⟩]).Ca / (computeTotals [⟨cexFeed, -100⟩]).P = 1 := by
  norm_num [computeTotals, addItem, contribution, ca_p_ratio, cexFeed]

/-- C4 amended: the Ca over P ratio equals totals.Ca / totals.P when
totals.P is strictly positive and 0 otherwise (in particular 0 when
totals.P is zero); likewise ME over CP with totals.CP; the computation
never divides by a non-positive denominator. -/
theorem ratio_guard_amended (t : Totals) :
    (0 < t.P → ca_p_ratio t = t.Ca / t.P) ∧
    (¬ 0 < t.P → ca_p_ratio t = 0) ∧
    (t.P = 0 → ca_p_ratio t = 0) ∧
    (0 < t.CP → me_cp_ratio t = t.ME / t.CP) ∧
    (¬ 0 < t.CP → me_cp_ratio t = 0) ∧
    (t.CP = 0 → me_cp_ratio t = 0) := by
  unfold ca_p_ratio me_cp_ratio
  refine ⟨fun h => if_pos h, fun h => if_neg h, fun h => ?_,
    fun h => if_pos h, fun h => if_neg h, fun h => ?_⟩
  · rw [if_neg]; rw [h]; exact lt_irrefl 0
  · rw [if_neg]; rw [h]; exact lt_irrefl 0

/-- C5 evaluates cmd_pearson at the degenerate input where both feed
values equal the target: the precondition accepts it and the division by
the zero part total raises an uncaught ZeroDivisionError, modelled by the
crash outcome, instead of reporting zero parts or a specific
degenerate-input error. -/
theorem pearson_degenerate_zero_division :
    cmd_pearson 5 5 5 = PearsonOutcome.zeroDivCrash := by
  norm_num [cmd_pearson]

/-- C6: for a target strictly between the two feed values, cmd_pearson
returns parts1 as the distance from feed2 to the target and parts2 as the
distance from feed1, the part ratio equals
(feed2 - target) / (target - feed1), and the two percentages add to
exactly 100. -/
theorem pearson_strict_between (target f1 f2 : ℚ)
    (h : f1 < target ∧ target < f2 ∨ f2 < target ∧ target < f1) :
    cmd_pearson target f1 f2 =
      PearsonOutcome.ok |f2 - target| |f1 - target|
        (|f2 - target| / (|f2 - target| + |f1 - target|) * 100)
        (|f1 - target| / (|f2 - target| + |f1 - target|) * 100) ∧
    |f2 - target| / |f1 - target| = (f2 - target) / (target - f1) ∧
    |f2 - target| / (|f2 - target| + |f1 - target|) * 100 +
      |f1 - target| / (|f2 - target| + |f1 - target|) * 100 = 100 := by
  have habs : |f2 - target| / |f1 - target| = (f2 - target) / (target - f1) ∧
      0 < |f2 - target| ∧ 0 < |f1 - target| := by
    rcases h with ⟨h1, h2⟩ | ⟨h1, h2⟩
    · rw [abs_of_pos (show (0 : ℚ) < f2 - target by linarith),
        abs_of_neg (show f1 - target < 0 by linarith), neg_sub]
      exact ⟨rfl, by linarith, by linarith⟩
    · rw [abs_of_neg (show f2 - target < 0 by linarith),
        abs_of_pos (show (0 : ℚ) < f1 - target by linarith), neg_sub]
      refine ⟨?_, by linarith, by linarith⟩
      rw [show f2 - target = -(target - f2) by ring,
        show target - f1 = -(f1 - target) by ring, neg_div_neg_eq]
  obtain ⟨hratio, hpos1, hpos2⟩ := habs
  have hcond : (f1 ≤ target ∧ target ≤ f2) ∨ (f2 ≤ target ∧ target ≤ f1) := by
    rcases h with ⟨a, b⟩ | ⟨a, b⟩
    · exact Or.inl ⟨le_of_lt a, le_of_lt b⟩
    · exact Or.inr ⟨le_of_lt a, le_of_lt b⟩
  have htot : |f2 - target| + |f1 - target| ≠ 0 := ne_of_gt (by linarith)
  refine ⟨?_, hratio, ?_⟩
  · unfold cmd_pearson
    rw [if_neg (not_not_intro hcond), if_neg htot]
  · have hsum : |f2 - target| / (|f2 - target| + |f1 - target|) * 100 +
        |f1 - target| / (|f2 - target| + |f1 - target|) * 100 =
        (|f2 - target| + |f1 - target|) / (|f2 - target| + |f1 - target|) * 100 := by
      ring
    rw [hsum, div_self htot]
    norm_num

/-- Witness for C6 at target 10 between feed values 5 and 20: ten parts
of feed 1 and five parts of feed 2. -/
theorem pearson_strict_between_witness :
    cmd_pearson 10 5 20 =
      PearsonOutcome.ok |(20 : ℚ) - 10| |(5 : ℚ) - 10|
        (|(20 : ℚ) - 10| / (|(20 : ℚ) - 10| + |(5 : ℚ) - 10|) * 100)
        (|(5 : ℚ) - 10| / (|(20 : ℚ) - 10| + |(5 : ℚ) - 10|) * 100) :=
  (pearson_strict_between 10 5 20 (Or.inl (by norm_num))).1

/-- C7: cmd_dilute reaches one of its two fatal exits exactly when the
target concentration is not below the start or is not positive; when both
preconditions hold it returns the dilution factor start / target and
water parts equal to that factor minus one. -/
theorem dilute_spec (start target : ℚ) :
    (isDiluteError (cmd_dilute start target) = true ↔
      start ≤ target ∨ target ≤ 0) ∧
    (target < start → 0 < target →
      cmd_dilute start target =
        DiluteOutcome.ok (start / target) (start / target - 1)) := by
  by_cases h1 : target ≥ start
  · simp only [cmd_dilute, if_pos h1, isDiluteError]
    exact ⟨by simp [h1], fun hlt => absurd h1 (not_le.mpr hlt)⟩
  · by_cases h2 : target ≤ 0
    · simp only [cmd_dilute, if_neg h1, if_pos h2, isDiluteError]
      exact ⟨by simp [h2], fun _ hpos => absurd h2 (not_le.mpr hpos)⟩
    · have h1n : ¬ target ≥ start := h1
      have h2n : ¬ target ≤ 0 := h2
      push_neg at h1 h2
      refine ⟨?_, ?_⟩
      · simp only [cmd_dilute, if_neg h1n, if_neg h2n, isDiluteError]
        simp only [Bool.false_eq_true, false_iff]
        push_neg
        exact ⟨h1, h2⟩
      · intro _ _
        unfold cmd_dilute
        rw [if_neg h1n, if_neg h2n]

/-- Witness for C7 at the spec example start 20, target 5: dilution
factor 4 and 3 parts of water. -/
theorem dilute_spec_witness :
    cmd_dilute 20 5 = DiluteOutcome.ok ((20 : ℚ)/5) ((20 : ℚ)/5 - 1) :=
  (dilute_spec 20 5).2 (by norm_num) (by norm_num)

/-- C8: when some table row matches the looked-up identifier exactly
(case-sensitively), the resolver returns an exactly matching row and no
suggestions; and the fuzzy suggestion list has at most three entries,
every entry scores at least 0.6 against the target, and entries appear in
descending similarity order. -/
theorem resolver_correct {α : Type} (key : α → String)
    (sim : String → String → ℚ) (table : List α) (target : String) :
    ((∃ r ∈ table, key r = target) →
      ∃ r, resolveId key sim table target = Except.ok r ∧ key r = target) ∧
    (find_similar_id sim target (table.map key)).length ≤ 3 ∧
    (∀ s ∈ find_similar_id sim target (table.map key),
      (6 : ℚ)/10 ≤ sim target s) ∧
    (find_similar_id sim target (table.map key)).Pairwise
      (fun a b => sim target b ≤ sim target a) := by
  have htrans : ∀ a b c : String,
      decide (sim target b ≤ sim target a) = true →
      decide (sim target c ≤ sim target b) = true →
      decide (sim target c ≤ sim target a) = true := by
    intro a b c hab hbc
    rw [decide_eq_true_iff] at hab hbc ⊢
    exact le_trans hbc hab
  have htotal : ∀ a b : String,
      (decide (sim target b ≤ sim target a) ||
        decide (sim target a ≤ sim target b)) = true := by
    intro a b
    rcases le_total (sim target b) (sim target a) with h | h <;> simp [h]
  refine ⟨?_, ?_, ?_, ?_⟩
  · rintro ⟨r, hr, hkey⟩
    have hmem : r ∈ table.filter (fun x => decide (key x = target)) :=
      List.mem_filter.mpr ⟨hr, by simp [hkey]⟩
    cases hl : table.filter (fun x => decide (key x = target)) with
    | nil => rw [hl] at hmem; cases hmem
    | cons r0 rs =>
      refine ⟨r0, ?_, ?_⟩
      · unfold resolveId
        rw [hl]
      · have hm0 : r0 ∈ table.filter (fun x => decide (key x = target)) :=
          hl ▸ List.mem_cons_self r0 rs
        simpa using List.of_mem_filter hm0
  · exact List.length_take_le 3 _
  · intro s hs
    have h1 : s ∈ ((table.map key).filter
        (fun x => decide ((6 : ℚ)/10 ≤ sim target x))).mergeSort
        (fun a b => decide (sim target b ≤ sim target a)) :=
      List.mem_of_mem_take hs
    have h2 := (List.mergeSort_perm _ _).mem_iff.mp h1
    have h3 := List.of_mem_filter h2
    exact of_decide_eq_true h3
  · have hs := List.sorted_mergeSort htrans htotal
      ((table.map key).filter (fun x => decide ((6 : ℚ)/10 ≤ sim target x)))
    have hs2 : (((table.map key).filter
        (fun x => decide ((6 : ℚ)/10 ≤ sim target x))).mergeSort
        (fun a b => decide (sim target b ≤ sim target a))).Pairwise
        (fun a b => sim target b ≤ sim target a) :=
      hs.imp (fun h => of_decide_eq_true h)
    exact hs2.sublist (List.take_sublist 3 _)

/-- C9: parsing a diet token succeeds exactly when splitting it on the
colon yields two substrings whose second parses as a number; every
failure reports the literal token, and every well-formed token parses to
its identifier and quantity pair. -/
theorem diet_token_parse (pn : List Char → Option ℚ) (entry : List Char) :
    ((∃ p, parseToken pn entry = Except.ok p) ↔
      ∃ f_id qty_str, entry.splitOn ':' = [f_id, qty_str] ∧
        ∃ q, pn qty_str = some q) ∧
    (∀ e, parseToken pn entry = Except.error e → e = entry) ∧
    (∀ f_id qty_str q, entry.splitOn ':' = [f_id, qty_str] →
      pn qty_str = some q → parseToken pn entry = Except.ok (f_id, q)) := by
  cases hsp : entry.splitOn ':' with
  | nil =>
    refine ⟨?_, ?_, ?_⟩
    · simp [parseToken, hsp]
    · intro e he
      simp only [parseToken, hsp] at he
      exact (Except.error.inj he).symm
    · intro f_id qty_str q heq
      simp at heq
  | cons a tl =>
    cases tl with
    | nil =>
      refine ⟨?_, ?_, ?_⟩
      · simp [parseToken, hsp]
      · intro e he
        simp only [parseToken, hsp] at he
        exact (Except.error.inj he).symm
      · intro f_id qty_str q heq
        simp at heq
    | cons b tl2 =>
      cases tl2 with
      | nil =>
        cases hpn : pn b with
        | none =>
          refine ⟨?_, ?_, ?_⟩
          · simp [parseToken, hsp, hpn]
          · intro e he
            simp only [parseToken, hsp, hpn] at he
            exact (Except.error.inj he).symm
          · intro f_id qty_str q heq hq
            obtain ⟨h1, h2⟩ : a = f_id ∧ b = qty_str := by simpa using heq
            rw [← h2, hpn] at hq
            cases hq
        | some q0 =>
          refine ⟨?_, ?_, ?_⟩
          · constructor
            · intro _
              exact ⟨a, b, rfl, q0, hpn⟩
            · intro _
              exact ⟨(a, q0), by simp [parseToken, hsp, hpn]⟩
          · intro e he
            simp [parseToken, hsp, hpn] at he
          · intro f_id qty_str q heq hq
            obtain ⟨h1, h2⟩ : a = f_id ∧ b = qty_str := by simpa using heq
            subst h1
            subst h2
            rw [hpn] at hq
            obtain rfl : q0 = q := Option.some.inj hq
            simp [parseToken, hsp, hpn]
      | cons c tl3 =>
        refine ⟨?_, ?_, ?_⟩
        · simp [parseToken, hsp]
        · intro e he
          simp only [parseToken, hsp] at he
          exact (Except.error.inj he).symm
        · intro f_id qty_str q heq
          simp at heq

/-- C10: the diet parser applies no sign check: a well-formed token whose
quantity parses to a negative number is accepted, its contribution
q * v / 100 to a nutrient with positive density is negative, and
appending the entry shifts every nutrient total by exactly q times the
feed value over 100 and the quantity total by q. -/
theorem negative_qty_accepted (pn : List Char → Option ℚ)
    (entry f_id qty_str : List Char) (q : ℚ) (feed : Feed)
    (hsp : entry.splitOn ':' = [f_id, qty_str]) (hpn : pn qty_str = some q)
    (hq : q < 0) :
    parseToken pn entry = Except.ok (f_id, q) ∧
    (∀ v : ℚ, 0 < v → contribution q v = q * v / 100 ∧ contribution q v < 0) ∧
    (∀ diet : List DietItem,
      (computeTotals (diet ++ [⟨feed, q⟩])).ME =
        (computeTotals diet).ME + q * feed.ME_per_kg / 100 ∧
      (computeTotals (diet ++ [⟨feed, q⟩])).CP =
        (computeTotals diet).CP + q * feed.CP_Pct / 100 ∧
      (computeTotals (diet ++ [⟨feed, q⟩])).Ca =
        (computeTotals diet).Ca + q * feed.Ca_Pct / 100 ∧
      (computeTotals (diet ++ [⟨feed, q⟩])).P =
        (computeTotals diet).P + q * feed.P_Pct / 100 ∧
      (computeTotals (diet ++ [⟨feed, q⟩])).Lysine =
        (computeTotals diet).Lysine + q * feed.Lysine_Pct / 100 ∧
      totalQty (diet ++ [⟨feed, q⟩]) = totalQty diet + q) := by
  refine ⟨by simp [parseToken, hsp, hpn], ?_, ?_⟩
  · intro v hv
    refine ⟨rfl, ?_⟩
    exact div_neg_of_neg_of_pos (mul_neg_of_neg_of_pos hq hv) (by norm_num)
  · intro diet
    have hc : computeTotals (diet ++ [⟨feed, q⟩]) =
        addItem (computeTotals diet) ⟨feed, q⟩ := by
      simp [computeTotals, List.foldl_append]
    rw [hc]
    refine ⟨by simp [addItem, contribution], by simp [addItem, contribution],
      by simp [addItem, contribution], by simp [addItem, contribution],
      by simp [addItem, contribution], by simp [totalQty, List.foldl_append]⟩

/-- A concrete numeric parser for the C10 witness: it maps the two
characters of the token minus five to the rational minus five. -/
def pnW : List Char → Option ℚ :=
  fun s => if s = ['-', '5'] then some (-5) else none

/-- Witness for C10: the token F colon minus five parses to the pair of
the identifier F and the quantity minus five. -/
theorem negative_qty_accepted_witness :
    parseToken pnW ['F', ':', '-', '5'] = Except.ok (['F'], -5) :=
  (negative_qty_accepted pnW ['F', ':', '-', '5'] ['F'] ['-', '5'] (-5)
    cexFeed (by decide) (by simp [pnW]) (by norm_num)).1

end RationCalc
